import Mathlib

/-!
Verification of the binauth bitmask authorization engine.

The repository's `src/` tree holds only the package's test suite and example
applications; the core `binauth` modules (the scope/action registry, the
permissions manager, the async permission repository and the FastAPI
permission cache) are not present under `src/`.  Every core definition below
is therefore modelled from the specification's words, and kept consistent
with the behaviours the test suite pins down.

Integer levels are modelled as `Nat` (the spec's `PermissionLevel` is a
32-bit unsigned integer) while declared action values are `Int`, so that the
rejection of zero and negative declarations is expressible.
-/

namespace Binauth

/-- Modelled from the spec: the configuration errors of the missing
`binauth` registry module.  `invalidActionValue` carries the offending
declared value and, when the failure is a too-high bit, the offending bit
position; `tooManyActions` carries the actual count and the 32-action
ceiling. -/
inductive RegistryError where
  | invalidActionValue (value : Int) (bitPos : Option Nat)
  | tooManyActions (count : Nat) (maxAllowed : Nat)
  deriving DecidableEq, Repr

/-- Modelled from the spec: the constant `MAX_ACTIONS_PER_SCOPE = 32`. -/
def MAX_ACTIONS_PER_SCOPE : Nat := 32

/-- Bit position of the highest set bit (0 for inputs 0 and 1), computed with
an explicit fuel so the definition is structurally recursive. -/
def bitPosAux : Nat → Nat → Nat
  | 0, _ => 0
  | fuel + 1, n => if n ≤ 1 then 0 else bitPosAux fuel (n / 2) + 1

/-- Bit position of the highest set bit of `n`; for `n = 2 ^ k` this is `k`. -/
def bitPos (n : Nat) : Nat := bitPosAux n n

/-- Modelled from the spec: one declared action inside a scope's `Actions`
enumeration of the missing registry module — a name and an integer value. -/
structure ActionDecl where
  name : String
  value : Int
  deriving DecidableEq, Repr

/-- The declared value of an action, as a natural number.  Meaningful for
validated declarations, whose values are positive. -/
def ActionDecl.nval (a : ActionDecl) : Nat := a.value.toNat

/-- Modelled from the spec: a `PermissionActionRegistry` subclass of the
missing registry module — a static declaration of one permission scope:
name, optional category, description, ordered action list and per-action
descriptions. -/
structure PermissionActionRegistry where
  scope_name : String
  category : Option String
  description : String
  actions : List ActionDecl
  action_descriptions : List (String × String)
  deriving DecidableEq, Repr

/-- Modelled from the spec: validation of a single declared action value —
"every action value is a power of two in [1, 2^31]; bit position 0 (value 0)
and negative values are rejected; bit position ≥ 32 is rejected", the
nonpositive failure naming the offending value and the too-high-bit failure
naming the offending bit position. -/
def validateActionValue (v : Int) : Except RegistryError Unit :=
  if v ≤ 0 then .error (.invalidActionValue v none)
  else if v.toNat != 2 ^ bitPos v.toNat then .error (.invalidActionValue v none)
  else if 31 < bitPos v.toNat then
    .error (.invalidActionValue v (some (bitPos v.toNat)))
  else .ok ()

/-- Validation of a list of declared action values, first failure wins. -/
def validateActionValues : List Int → Except RegistryError Unit
  | [] => .ok ()
  | v :: vs => do
    validateActionValue v
    validateActionValues vs

/-- Modelled from the spec: declaration-time validation of a registry —
the action-count ceiling is checked first (the 33-action test fails with the
count error even though its last value also has an illegal bit), then
each value in declaration order. -/
def PermissionActionRegistry.validate (r : PermissionActionRegistry) :
    Except RegistryError Unit :=
  if MAX_ACTIONS_PER_SCOPE < r.actions.length then
    .error (.tooManyActions r.actions.length MAX_ACTIONS_PER_SCOPE)
  else validateActionValues (r.actions.map (·.value))

/-- Modelled from the spec: `all_permissions()` — the bitwise OR of every
declared action value. -/
def PermissionActionRegistry.all_permissions (r : PermissionActionRegistry) : Nat :=
  r.actions.foldr (fun a acc => a.nval ||| acc) 0

/-- A runtime action value as passed to the manager's check methods: an
enumeration member remembers the scope whose `Actions` class declared it
(`owner`), its name and its integer value.  Two scopes' members are distinct
even when their integer values collide. -/
structure ActionRef where
  owner : String
  name : String
  value : Int
  deriving DecidableEq, Repr

/-- The integer value of a runtime action, as a natural number. -/
def ActionRef.nval (a : ActionRef) : Nat := a.value.toNat

/-- The runtime action member corresponding to a declared action of `r`. -/
def PermissionActionRegistry.actionRef (r : PermissionActionRegistry)
    (d : ActionDecl) : ActionRef :=
  ⟨r.scope_name, d.name, d.value⟩

/-- Modelled from the spec: `combine(actions...)` / the combined OR-mask of a
list of actions. -/
def combineMask (actions : List ActionRef) : Nat :=
  actions.foldr (fun a acc => a.nval ||| acc) 0

/-- Modelled from the spec: the lookup errors of the missing manager module,
`UndefinedScopeError` and `UndefinedActionError`, each carrying its
message. -/
inductive BinauthError where
  | undefinedScope (msg : String)
  | undefinedAction (msg : String)
  deriving DecidableEq, Repr

/-- Modelled from the spec: a `PermissionsManager` holds an ordered
collection of scope registries. -/
structure PermissionsManager where
  registries : List PermissionActionRegistry

/-- Registered scope names, in registration order. -/
def PermissionsManager.scopes (m : PermissionsManager) : List String :=
  m.registries.map (·.scope_name)

/-- Modelled from the spec: `get_registry(scope)` — the registry, or
`UndefinedScopeError` ("Undefined scope: …") when unknown. -/
def PermissionsManager.get_registry (m : PermissionsManager) (scope : String) :
    Except BinauthError PermissionActionRegistry :=
  match m.registries.find? (fun r => r.scope_name == scope) with
  | some r => .ok r
  | none => .error (.undefinedScope ("Undefined scope: " ++ scope))

/-- Membership of a runtime action in a registry's action set: the member
must come from this scope's own `Actions` class and appear among its
declared actions.  A member of a different scope's class is never a member,
even when its integer value collides with a declared value. -/
def actionInRegistry (a : ActionRef) (r : PermissionActionRegistry) : Bool :=
  a.owner == r.scope_name &&
    r.actions.any (fun d => d.name == a.name && d.value == a.value)

/-- A subject as the manager sees it: a value exposing a per-scope integer
permission map. -/
structure Subject where
  permissions : List (String × Nat)

/-- The subject's stored level for a scope, when the map has an entry. -/
def Subject.levelFor (u : Subject) (scope : String) : Option Nat :=
  (u.permissions.find? (fun p => p.1 == scope)).map (·.2)

/-- Modelled from the spec: `check_permission(subject, scope, action)` —
resolve the registry (propagating `UndefinedScopeError`), verify the action
belongs to the scope's action set (`UndefinedActionError` "… not valid for
scope …" otherwise), read the subject's entry (`UndefinedScopeError` "… does
not have permissions for scope …" when absent), and return
`(level & action) != 0`. -/
def PermissionsManager.check_permission (m : PermissionsManager) (u : Subject)
    (scope : String) (action : ActionRef) : Except BinauthError Bool := do
  let r ← m.get_registry scope
  if actionInRegistry action r then
    match u.levelFor scope with
    | some level => .ok ((level &&& action.nval) != 0)
    | none =>
      .error (.undefinedScope
        ("Object does not have permissions for scope " ++ scope))
  else
    .error (.undefinedAction
      ("Action " ++ action.name ++ " is not valid for scope " ++ scope))

/-- Validation of a list of runtime actions against a registry, first
failure wins. -/
def validateActions (r : PermissionActionRegistry) :
    List ActionRef → Except BinauthError Unit
  | [] => .ok ()
  | a :: rest =>
    if actionInRegistry a r then validateActions r rest
    else .error (.undefinedAction
      ("Action " ++ a.name ++ " is not valid for scope " ++ r.scope_name))

/-- Modelled from the spec: `check_permissions(subject, scope, actions,
require_all)` — a single bitmask test against the combined mask: for
`require_all`, `(level & mask) == mask`; for "any", `(level & mask) != 0`. -/
def PermissionsManager.check_permissions (m : PermissionsManager) (u : Subject)
    (scope : String) (actions : List ActionRef) (require_all : Bool) :
    Except BinauthError Bool := do
  let r ← m.get_registry scope
  validateActions r actions
  match u.levelFor scope with
  | some level =>
    let mask := combineMask actions
    .ok (if require_all then (level &&& mask) == mask else (level &&& mask) != 0)
  | none =>
    .error (.undefinedScope
      ("Object does not have permissions for scope " ++ scope))

/-- Modelled from the spec: the minimal capability interface of a
caller-supplied permission record type — a constructor from the three
canonical fields plus getters and a level updater.  The default
three-column record is one implementation among many. -/
structure PermissionModelOps (U R : Type) where
  mkRecord : U → String → Nat → R
  user_id : R → U
  scope_name : R → String
  level : R → Nat
  withLevel : R → Nat → R

/-- The laws a caller-supplied record type must satisfy: the constructor
stores the three canonical fields and the level updater changes only the
level. -/
structure LawfulOps {U R : Type} (ops : PermissionModelOps U R) : Prop where
  user_id_mk : ∀ u s l, ops.user_id (ops.mkRecord u s l) = u
  scope_mk : ∀ u s l, ops.scope_name (ops.mkRecord u s l) = s
  level_mk : ∀ u s l, ops.level (ops.mkRecord u s l) = l
  user_id_withLevel : ∀ r l, ops.user_id (ops.withLevel r l) = ops.user_id r
  scope_withLevel : ∀ r l, ops.scope_name (ops.withLevel r l) = ops.scope_name r
  level_withLevel : ∀ r l, ops.level (ops.withLevel r l) = l

/-- The repository's backing table: the list of persisted records. -/
abbrev Store (R : Type) := List R

/-- The stored record for a (subject, scope) pair, if any. -/
def findGrant {U R : Type} [BEq U] (ops : PermissionModelOps U R)
    (st : Store R) (u : U) (s : String) : Option R :=
  st.find? (fun r => ops.user_id r == u && ops.scope_name r == s)

/-- Modelled from the spec: `get_user_permission(subject, scope)` — the
stored level or an absent sentinel, failing with `UndefinedScopeError` when
the scope is unknown to the manager. -/
def get_user_permission {U R : Type} [BEq U] (m : PermissionsManager)
    (ops : PermissionModelOps U R) (st : Store R) (u : U) (s : String) :
    Except BinauthError (Option Nat) := do
  let _ ← m.get_registry s
  .ok ((findGrant ops st u s).map ops.level)

/-- Modelled from the spec: `set_permission(subject, scope, level)` — upsert:
update the existing Grant in place, or create one; returns the persisted
record alongside the new store. -/
def set_permission {U R : Type} [BEq U] (ops : PermissionModelOps U R)
    (st : Store R) (u : U) (s : String) (lvl : Nat) : R × Store R :=
  match findGrant ops st u s with
  | some r =>
    (ops.withLevel r lvl,
      st.map (fun x =>
        if ops.user_id x == u && ops.scope_name x == s then ops.withLevel x lvl
        else x))
  | none =>
    let r := ops.mkRecord u s lvl
    (r, st ++ [r])

/-- Modelled from the spec: `grant_actions` — read the current level (0 if
absent), OR-combine with the given actions' combined mask, upsert. -/
def grant_actions {U R : Type} [BEq U] (m : PermissionsManager)
    (ops : PermissionModelOps U R) (st : Store R) (u : U) (s : String)
    (actions : List ActionRef) : Except BinauthError (R × Store R) := do
  let cur ← get_user_permission m ops st u s
  .ok (set_permission ops st u s (cur.getD 0 ||| combineMask actions))

/-- The complement of a mask within the 32-bit unsigned domain of
`PermissionLevel`. -/
def compl32 (mask : Nat) : Nat := (2 ^ 32 - 1) ^^^ mask

/-- Modelled from the spec: `revoke_actions` — read the current level, AND
with the bitwise complement of the combined mask, upsert (a no-op row is
still rewritten, not deleted). -/
def revoke_actions {U R : Type} [BEq U] (m : PermissionsManager)
    (ops : PermissionModelOps U R) (st : Store R) (u : U) (s : String)
    (actions : List ActionRef) : Except BinauthError (R × Store R) := do
  let cur ← get_user_permission m ops st u s
  .ok (set_permission ops st u s (cur.getD 0 &&& compl32 (combineMask actions)))

/-- Modelled from the spec: `delete_permission(subject, scope)` — delete the
single Grant; returns whether a row existed. -/
def delete_permission {U R : Type} [BEq U] (ops : PermissionModelOps U R)
    (st : Store R) (u : U) (s : String) : Bool × Store R :=
  ((findGrant ops st u s).isSome,
    st.filter (fun r => !(ops.user_id r == u && ops.scope_name r == s)))

/-- Modelled from the spec: `delete_all_permissions(subject)` — delete every
Grant of the subject; returns the count deleted. -/
def delete_all_permissions {U R : Type} [BEq U] (ops : PermissionModelOps U R)
    (st : Store R) (u : U) : Nat × Store R :=
  ((st.filter (fun r => ops.user_id r == u)).length,
    st.filter (fun r => !(ops.user_id r == u)))

/-- Modelled from the spec: `get_all_user_permissions(subject)` — the
scope-name→level mapping of every Grant the subject has. -/
def get_all_user_permissions {U R : Type} [BEq U] (ops : PermissionModelOps U R)
    (st : Store R) (u : U) : List (String × Nat) :=
  (st.filter (fun r => ops.user_id r == u)).map
    (fun r => (ops.scope_name r, ops.level r))

/-- Modelled from the spec: `has_permission` — composes
`get_user_permission` with the single-action bitmask test, treating an
absent Grant as level 0. -/
def has_permission {U R : Type} [BEq U] (m : PermissionsManager)
    (ops : PermissionModelOps U R) (st : Store R) (u : U) (s : String)
    (a : ActionRef) : Except BinauthError Bool := do
  let cur ← get_user_permission m ops st u s
  .ok ((cur.getD 0 &&& a.nval) != 0)

/-- Modelled from the spec: the default three-column persisted record
`(subject_id, scope_name, level)`. -/
structure Grant (U : Type) where
  user_id : U
  scope_name : String
  level : Nat
  deriving DecidableEq, Repr

/-- The capability interface of the default record type. -/
def defaultOps (U : Type) : PermissionModelOps U (Grant U) where
  mkRecord := fun u s l => ⟨u, s, l⟩
  user_id := Grant.user_id
  scope_name := Grant.scope_name
  level := Grant.level
  withLevel := fun r l => { r with level := l }

/-- The default record type satisfies the record laws. -/
theorem defaultOps_lawful (U : Type) : LawfulOps (defaultOps U) := by
  constructor <;> intros <;> rfl

/-- Modelled from the spec: the in-memory TTL cache of the FastAPI
integration — subject identifier to (full per-scope permission map,
insertion timestamp), with one global TTL in seconds.  Time is passed
explicitly to `set` and `get`. -/
structure PermissionCache (U : Type) where
  ttl_seconds : Nat
  entries : List (U × (List (String × Nat) × Nat))

/-- Modelled from the spec: `set(subject, map)` stores with the current
timestamp, replacing any previous entry wholesale; a TTL of 0 means caching
is disabled and `set` is a no-op. -/
def PermissionCache.set {U : Type} [BEq U] (c : PermissionCache U) (now : Nat)
    (u : U) (perms : List (String × Nat)) : PermissionCache U :=
  if c.ttl_seconds == 0 then c
  else { c with
    entries := (u, (perms, now)) :: c.entries.filter (fun e => !(e.1 == u)) }

/-- Modelled from the spec: `get(subject)` — the map if present and
`now - inserted_at < ttl`, otherwise absent; expiry is checked lazily at
read time. -/
def PermissionCache.get {U : Type} [BEq U] (c : PermissionCache U) (now : Nat)
    (u : U) : Option (List (String × Nat)) :=
  match c.entries.find? (fun e => e.1 == u) with
  | some e => if now - e.2.2 < c.ttl_seconds then some e.2.1 else none
  | none => none

/-- Modelled from the spec: `invalidate(subject)` — removes the entry; never
fails, even if absent. -/
def PermissionCache.invalidate {U : Type} [BEq U] (c : PermissionCache U)
    (u : U) : PermissionCache U :=
  { c with entries := c.entries.filter (fun e => !(e.1 == u)) }

/-- Modelled from the spec: `clear()` — removes all entries. -/
def PermissionCache.clear {U : Type} (c : PermissionCache U) :
    PermissionCache U :=
  { c with entries := [] }

/-! Concrete fixtures mirroring the test suite's registries and manager. -/

/-- The `TaskPermissions` registry of the test fixtures: scope "tasks" with
CREATE/READ/UPDATE/DELETE at bits 0..3. -/
def TaskPermissions : PermissionActionRegistry where
  scope_name := "tasks"
  category := some "Content"
  description := "Task management"
  actions := [⟨"CREATE", 1⟩, ⟨"READ", 2⟩, ⟨"UPDATE", 4⟩, ⟨"DELETE", 8⟩]
  action_descriptions :=
    [("CREATE", "Create new tasks"), ("READ", "View tasks"),
     ("UPDATE", "Edit tasks"), ("DELETE", "Remove tasks")]

/-- The `ReportPermissions` registry of the test fixtures: scope "reports"
with VIEW/EXPORT at bits 0..1; VIEW's value collides with CREATE's. -/
def ReportPermissions : PermissionActionRegistry where
  scope_name := "reports"
  category := some "Content"
  description := "Report management"
  actions := [⟨"VIEW", 1⟩, ⟨"EXPORT", 2⟩]
  action_descriptions :=
    [("VIEW", "View reports"), ("EXPORT", "Export reports")]

/-- The test fixtures' manager, holding the tasks and reports registries. -/
def testManager : PermissionsManager := ⟨[TaskPermissions, ReportPermissions]⟩

/-- The runtime member `TaskPermissions.Actions.CREATE`. -/
def taskCREATE : ActionRef := ⟨"tasks", "CREATE", 1⟩

/-- The runtime member `TaskPermissions.Actions.READ`. -/
def taskREAD : ActionRef := ⟨"tasks", "READ", 2⟩

/-- The runtime member `TaskPermissions.Actions.UPDATE`. -/
def taskUPDATE : ActionRef := ⟨"tasks", "UPDATE", 4⟩

/-- The runtime member `TaskPermissions.Actions.DELETE`. -/
def taskDELETE : ActionRef := ⟨"tasks", "DELETE", 8⟩

/-- The runtime member `ReportPermissions.Actions.VIEW`: declared by the
"reports" scope, with integer value 1 colliding with CREATE's. -/
def reportVIEW : ActionRef := ⟨"reports", "VIEW", 1⟩

/-- A registry declaring 33 actions at bit positions 0..32. -/
def registry33 : PermissionActionRegistry where
  scope_name := "toomany"
  category := none
  description := ""
  actions := (List.range 33).map (fun i => ⟨"ACTION" ++ toString i, (2 : Int) ^ i⟩)
  action_descriptions := []

/-- A registry declaring exactly 32 actions at bit positions 0..31. -/
def registry32 : PermissionActionRegistry where
  scope_name := "max"
  category := none
  description := ""
  actions := (List.range 32).map (fun i => ⟨"ACTION" ++ toString i, (2 : Int) ^ i⟩)
  action_descriptions := []

/-- Modelled from the spec: the custom record type of the repository tests —
the three canonical fields plus a caller-defined `tenant_id` column whose
declared default is 1. -/
structure CustomPermission where
  user_id : String
  scope_name : String
  level : Nat
  tenant_id : Nat := 1
  deriving DecidableEq, Repr

/-- The capability interface of the custom record type; the constructor
leaves `tenant_id` at its declared default. -/
def customOps : PermissionModelOps String CustomPermission where
  mkRecord := fun u s l => { user_id := u, scope_name := s, level := l }
  user_id := CustomPermission.user_id
  scope_name := CustomPermission.scope_name
  level := CustomPermission.level
  withLevel := fun r l => { r with level := l }

/-- The custom record type satisfies the record laws. -/
theorem customOps_lawful : LawfulOps customOps := by
  constructor <;> intros <;> rfl

/-! Bitmask helper lemmas. -/

theorem land_eq_self_iff {L m : Nat} :
    L &&& m = m ↔ ∀ j, m.testBit j = true → L.testBit j = true := by
  constructor
  · intro h j hj
    have hc := congrArg (fun x => Nat.testBit x j) h
    simp only [Nat.testBit_land, hj, Bool.and_true] at hc
    exact hc
  · intro h
    apply Nat.eq_of_testBit_eq
    intro j
    rw [Nat.testBit_land]
    cases hm : m.testBit j
    · simp
    · simp [h j hm]

theorem land_two_pow_ne_zero {L k : Nat} :
    L &&& 2 ^ k ≠ 0 ↔ L.testBit k = true := by
  rw [Nat.and_two_pow]
  cases h : L.testBit k <;> simp [h, Nat.pos_iff_ne_zero]

theorem land_ne_zero_iff {L m : Nat} :
    L &&& m ≠ 0 ↔ ∃ j, L.testBit j = true ∧ m.testBit j = true := by
  constructor
  · intro h
    obtain ⟨i, hi⟩ := Nat.ne_zero_implies_bit_true h
    rw [Nat.testBit_land] at hi
    exact ⟨i, by simpa using hi⟩
  · rintro ⟨j, hL, hm⟩ h0
    have hc := congrArg (fun x => Nat.testBit x j) h0
    simp [Nat.testBit_land, hL, hm] at hc

theorem combineMask_cons (a : ActionRef) (l : List ActionRef) :
    combineMask (a :: l) = a.nval ||| combineMask l := rfl

theorem testBit_combineMask (l : List ActionRef) (j : Nat) :
    (combineMask l).testBit j = l.any (fun a => a.nval.testBit j) := by
  induction l with
  | nil => simp [combineMask]
  | cons a rest ih => simp [combineMask_cons, Nat.testBit_lor, ih]

theorem land_combineMask_eq_iff {L : Nat} {l : List ActionRef}
    (hp : ∀ a ∈ l, ∃ k, a.nval = 2 ^ k) :
    L &&& combineMask l = combineMask l ↔ ∀ a ∈ l, L &&& a.nval ≠ 0 := by
  rw [land_eq_self_iff]
  constructor
  · intro h a ha
    obtain ⟨k, hk⟩ := hp a ha
    rw [hk, land_two_pow_ne_zero]
    apply h
    rw [testBit_combineMask]
    simp only [List.any_eq_true]
    exact ⟨a, ha, by rw [hk]; exact Nat.testBit_two_pow_self⟩
  · intro h j hj
    rw [testBit_combineMask] at hj
    simp only [List.any_eq_true] at hj
    obtain ⟨a, ha, hbit⟩ := hj
    obtain ⟨k, hk⟩ := hp a ha
    rw [hk, Nat.testBit_two_pow] at hbit
    have hjk : k = j := by simpa using hbit
    subst hjk
    have hne := h a ha
    rw [hk, land_two_pow_ne_zero] at hne
    exact hne

theorem land_combineMask_ne_zero_iff {L : Nat} {l : List ActionRef} :
    L &&& combineMask l ≠ 0 ↔ ∃ a ∈ l, L &&& a.nval ≠ 0 := by
  rw [land_ne_zero_iff]
  constructor
  · rintro ⟨j, hL, hm⟩
    rw [testBit_combineMask] at hm
    simp only [List.any_eq_true] at hm
    obtain ⟨a, ha, hbit⟩ := hm
    exact ⟨a, ha, land_ne_zero_iff.mpr ⟨j, hL, hbit⟩⟩
  · rintro ⟨a, ha, hne⟩
    obtain ⟨j, hL, hbit⟩ := land_ne_zero_iff.mp hne
    refine ⟨j, hL, ?_⟩
    rw [testBit_combineMask]
    simp only [List.any_eq_true]
    exact ⟨a, ha, hbit⟩

/-! Lemmas about the fueled bit-position function. -/

theorem bitPosAux_congr : ∀ (fuel n fuel' : Nat), n ≤ fuel → n ≤ fuel' →
    bitPosAux fuel n = bitPosAux fuel' n := by
  intro fuel
  induction fuel with
  | zero =>
    intro n fuel' hf _
    have hn : n = 0 := Nat.le_zero.mp hf
    subst hn
    cases fuel' <;> simp [bitPosAux]
  | succ f ih =>
    intro n fuel' hf hf'
    cases fuel' with
    | zero =>
      have hn : n = 0 := Nat.le_zero.mp hf'
      subst hn
      simp [bitPosAux]
    | succ f' =>
      by_cases h1 : n ≤ 1
      · simp [bitPosAux, h1]
      · have hlt : n / 2 < n := Nat.div_lt_self (by omega) (by omega)
        simp only [bitPosAux, if_neg h1]
        rw [ih (n / 2) f' (by omega) (by omega)]

theorem bitPos_two_pow (k : Nat) : bitPos (2 ^ k) = k := by
  induction k with
  | zero => rfl
  | succ k ih =>
    have hp : 0 < 2 ^ k := Nat.two_pow_pos k
    have hs : 2 ^ (k + 1) = 2 ^ k * 2 := Nat.pow_succ 2 k
    obtain ⟨m, hm⟩ : ∃ m, 2 ^ (k + 1) = m + 1 := ⟨2 ^ (k + 1) - 1, by omega⟩
    have hne : ¬ (m + 1 ≤ 1) := by omega
    have hdiv : (m + 1) / 2 = 2 ^ k := by omega
    have hle : 2 ^ k ≤ m := by omega
    unfold bitPos
    rw [hm]
    simp only [bitPosAux, if_neg hne]
    rw [hdiv, bitPosAux_congr m (2 ^ k) (2 ^ k) hle (Nat.le_refl _)]
    have hb : bitPosAux (2 ^ k) (2 ^ k) = k := ih
    omega

/-! Consequences of registry validation. -/

theorem validateActionValue_ok {v : Int} (h : validateActionValue v = .ok ()) :
    0 < v ∧ v.toNat = 2 ^ bitPos v.toNat ∧ bitPos v.toNat ≤ 31 := by
  unfold validateActionValue at h
  split at h
  · simp at h
  · split at h
    · simp at h
    · split at h
      · simp at h
      · rename_i h1 h2 h3
        refine ⟨by omega, by simpa using h2, by omega⟩

theorem validateActionValues_ok : ∀ {vs : List Int},
    validateActionValues vs = .ok () → ∀ v ∈ vs, validateActionValue v = .ok () := by
  intro vs
  induction vs with
  | nil =>
    intro _ v hv
    simp at hv
  | cons w ws ih =>
    intro h v hv
    unfold validateActionValues at h
    cases hw : validateActionValue w with
    | error e =>
      rw [hw] at h
      have h2 : (Except.error e : Except RegistryError Unit) = .ok () := h
      exact Except.noConfusion h2
    | ok u =>
      cases u
      rw [hw] at h
      have h2 : validateActionValues ws = .ok () := h
      rcases List.mem_cons.mp hv with rfl | hmem
      · exact hw
      · exact ih h2 v hmem

theorem validate_mem {r : PermissionActionRegistry} (h : r.validate = .ok ())
    {d : ActionDecl} (hd : d ∈ r.actions) :
    0 < d.value ∧ d.nval = 2 ^ bitPos d.nval ∧ bitPos d.nval ≤ 31 := by
  unfold PermissionActionRegistry.validate at h
  split at h
  · exact Except.noConfusion h
  · exact validateActionValue_ok (validateActionValues_ok h d.value
      (List.mem_map_of_mem _ hd))

theorem actionInRegistry_pow {a : ActionRef} {r : PermissionActionRegistry}
    (hv : r.validate = .ok ()) (ha : actionInRegistry a r = true) :
    ∃ k, a.nval = 2 ^ k := by
  unfold actionInRegistry at ha
  simp only [Bool.and_eq_true, List.any_eq_true, beq_iff_eq] at ha
  obtain ⟨-, d, hd, -, hval⟩ := ha
  have h3 := validate_mem hv hd
  refine ⟨bitPos d.nval, ?_⟩
  have : a.nval = d.nval := by
    unfold ActionRef.nval ActionDecl.nval
    rw [hval]
  rw [this]
  exact h3.2.1

theorem actionRef_mem {r : PermissionActionRegistry} {d : ActionDecl}
    (hd : d ∈ r.actions) : actionInRegistry (r.actionRef d) r = true := by
  unfold actionInRegistry PermissionActionRegistry.actionRef
  simp only [Bool.and_eq_true, List.any_eq_true]
  exact ⟨by simp, d, hd, by simp⟩

theorem exbind_ok {ε α β : Type} (a : α) (f : α → Except ε β) :
    (Except.ok a >>= f) = f a := rfl

theorem exbind_error {ε α β : Type} (e : ε) (f : α → Except ε β) :
    ((Except.error e : Except ε α) >>= f) = Except.error e := rfl

theorem validateActions_ok {r : PermissionActionRegistry} :
    ∀ {l : List ActionRef}, (∀ a ∈ l, actionInRegistry a r = true) →
    validateActions r l = .ok () := by
  intro l
  induction l with
  | nil => intro _; rfl
  | cons a rest ih =>
    intro h
    unfold validateActions
    rw [if_pos (h a (List.mem_cons_self a rest))]
    exact ih (fun b hb => h b (List.mem_cons_of_mem a hb))

/-- Shared reduction of `check_permission` in the success path: defined
scope, member action, present entry. -/
theorem check_permission_some_level
    (m : PermissionsManager) (u : Subject) (s : String)
    (r : PermissionActionRegistry) (a : ActionRef) (L : Nat)
    (hr : m.get_registry s = .ok r) (ha : actionInRegistry a r = true)
    (hL : u.levelFor s = some L) :
    m.check_permission u s a = .ok ((L &&& a.nval) != 0) := by
  unfold PermissionsManager.check_permission
  rw [hr, exbind_ok]
  simp [ha, hL]

/-- The declared actions of a registry, as runtime members. -/
def PermissionActionRegistry.get_actions (r : PermissionActionRegistry) :
    List ActionRef :=
  r.actions.map r.actionRef

theorem all_permissions_eq_combineMask (r : PermissionActionRegistry) :
    r.all_permissions = combineMask r.get_actions := by
  unfold PermissionActionRegistry.all_permissions combineMask
  unfold PermissionActionRegistry.get_actions
  rw [List.foldr_map]
  rfl

/-! Concrete subjects mirroring the test suite. -/

/-- A subject holding level 3 (CREATE + READ) in scope "tasks". -/
def user3 : Subject := ⟨[("tasks", 3)]⟩

/-- A subject holding level 7 (CREATE + READ + UPDATE) in scope "tasks". -/
def user7 : Subject := ⟨[("tasks", 7)]⟩

/-- A subject holding level 1 (CREATE only) in scope "tasks". -/
def user1 : Subject := ⟨[("tasks", 1)]⟩

/-- A subject with an empty permission map. -/
def userEmpty : Subject := ⟨[]⟩

/-- A subject holding levels in both test scopes. -/
def userTasksReports : Subject := ⟨[("tasks", 3), ("reports", 1)]⟩

/-- A subject holding every "tasks" action. -/
def user15 : Subject := ⟨[("tasks", 15)]⟩

/-- C1: for every subject whose permission map holds level `L` for a scope
defined in the manager and every action declared in that scope's registry,
`check_permission` returns the boolean `(L & action) != 0` — true exactly
when the action's bit is set in `L`. -/
theorem check_permission_returns_land_test
    (m : PermissionsManager) (u : Subject) (s : String)
    (r : PermissionActionRegistry) (d : ActionDecl) (L : Nat)
    (hr : m.get_registry s = .ok r) (hd : d ∈ r.actions)
    (hL : u.levelFor s = some L) :
    m.check_permission u s (r.actionRef d) =
      .ok ((L &&& (r.actionRef d).nval) != 0) :=
  check_permission_some_level m u s r (r.actionRef d) L hr (actionRef_mem hd) hL

/-- Witness for C1: the fixture manager, a subject with tasks level 3, and
the CREATE action. -/
theorem check_permission_returns_land_test_witness :
    testManager.check_permission user3 "tasks"
      (TaskPermissions.actionRef ⟨"CREATE", 1⟩) =
      .ok ((3 &&& (TaskPermissions.actionRef ⟨"CREATE", 1⟩).nval) != 0) :=
  check_permission_returns_land_test testManager user3 "tasks" TaskPermissions
    ⟨"CREATE", 1⟩ 3 rfl (by decide) rfl

/-- C2: for a subject with entry level `L` for a defined scope and a
non-empty list of that scope's actions with combined OR-mask `mask`,
`check_permissions` with `require_all = true` returns
`(L & mask) == mask` — equivalently, every listed action passes the
single-action test — and with `require_all = false` returns
`(L & mask) != 0` — equivalently, at least one listed action passes. -/
theorem check_permissions_masks
    (m : PermissionsManager) (u : Subject) (s : String)
    (r : PermissionActionRegistry) (actions : List ActionRef) (L : Nat)
    (hr : m.get_registry s = .ok r) (hv : r.validate = .ok ())
    (hmem : ∀ a ∈ actions, actionInRegistry a r = true)
    (hne : actions ≠ []) (hL : u.levelFor s = some L) :
    (m.check_permissions u s actions true =
        .ok ((L &&& combineMask actions) == combineMask actions)) ∧
    (m.check_permissions u s actions false =
        .ok ((L &&& combineMask actions) != 0)) ∧
    (((L &&& combineMask actions) == combineMask actions) =
        actions.all (fun a => (L &&& a.nval) != 0)) ∧
    (((L &&& combineMask actions) != 0) =
        actions.any (fun a => (L &&& a.nval) != 0)) := by
  have hp : ∀ a ∈ actions, ∃ k, a.nval = 2 ^ k :=
    fun a ha => actionInRegistry_pow hv (hmem a ha)
  refine ⟨?_, ?_, ?_, ?_⟩
  · unfold PermissionsManager.check_permissions
    rw [hr, exbind_ok, validateActions_ok hmem, exbind_ok, hL]
    rfl
  · unfold PermissionsManager.check_permissions
    rw [hr, exbind_ok, validateActions_ok hmem, exbind_ok, hL]
    rfl
  · rw [Bool.eq_iff_iff]
    simp only [beq_iff_eq, List.all_eq_true, bne_iff_ne, ne_eq]
    exact land_combineMask_eq_iff hp
  · rw [Bool.eq_iff_iff]
    simp only [bne_iff_ne, List.any_eq_true, ne_eq]
    exact land_combineMask_ne_zero_iff

/-- Witness for C2: subject with tasks level 7 and the action list
[CREATE, READ]. -/
theorem check_permissions_masks_witness :
    testManager.check_permissions user7 "tasks" [taskCREATE, taskREAD] true =
      .ok ((7 &&& combineMask [taskCREATE, taskREAD]) ==
        combineMask [taskCREATE, taskREAD]) :=
  (check_permissions_masks testManager user7 "tasks" TaskPermissions
    [taskCREATE, taskREAD] 7 rfl rfl (by decide) (by decide) rfl).1

/-- C3: `check_permission` fails with `UndefinedActionError` when the action
is not a member of the resolved scope's action set — in particular a member
of a different scope's enumeration never belongs, even when its integer
value collides with one of the scope's own values; it fails with
`UndefinedScopeError` when the subject's permission map has no entry for the
scope; and a present entry sharing no bits with the action yields `ok false`
rather than an error. -/
theorem check_permission_error_cases
    (m : PermissionsManager) (s : String) (r : PermissionActionRegistry)
    (hr : m.get_registry s = .ok r) :
    (∀ a : ActionRef, a.owner ≠ r.scope_name → actionInRegistry a r = false) ∧
    (∀ (u : Subject) (a : ActionRef), actionInRegistry a r = false →
      ∃ msg, m.check_permission u s a = .error (.undefinedAction msg)) ∧
    (∀ (u : Subject) (a : ActionRef), actionInRegistry a r = true →
      u.levelFor s = none →
      ∃ msg, m.check_permission u s a = .error (.undefinedScope msg)) ∧
    (∀ (u : Subject) (a : ActionRef) (L : Nat), actionInRegistry a r = true →
      u.levelFor s = some L → L &&& a.nval = 0 →
      m.check_permission u s a = .ok false) := by
  refine ⟨?_, ?_, ?_, ?_⟩
  · intro a howner
    unfold actionInRegistry
    have : (a.owner == r.scope_name) = false := beq_false_of_ne howner
    rw [this, Bool.false_and]
  · intro u a ha
    refine ⟨"Action " ++ a.name ++ " is not valid for scope " ++ s, ?_⟩
    unfold PermissionsManager.check_permission
    rw [hr, exbind_ok]
    simp [ha]
  · intro u a ha hnone
    refine ⟨"Object does not have permissions for scope " ++ s, ?_⟩
    unfold PermissionsManager.check_permission
    rw [hr, exbind_ok]
    simp [ha, hnone]
  · intro u a L ha hL hzero
    unfold PermissionsManager.check_permission
    rw [hr, exbind_ok]
    simp [ha, hL, hzero]

/-- Witness for C3: the reports-scope VIEW member (value 1, colliding with
CREATE) is rejected on the tasks scope; an empty-map subject gets
`UndefinedScopeError`; a subject with tasks level 3 gets `ok false` for
UPDATE. -/
theorem check_permission_error_cases_witness :
    (∃ msg, testManager.check_permission userTasksReports "tasks" reportVIEW =
      .error (.undefinedAction msg)) ∧
    (∃ msg, testManager.check_permission userEmpty "tasks" taskCREATE =
      .error (.undefinedScope msg)) ∧
    testManager.check_permission user3 "tasks" taskUPDATE = .ok false := by
  obtain ⟨h1, h2, h3, h4⟩ :=
    check_permission_error_cases testManager "tasks" TaskPermissions rfl
  exact ⟨h2 userTasksReports reportVIEW (by decide),
    h3 userEmpty taskCREATE (by decide) rfl,
    h4 user3 taskUPDATE 3 (by decide) rfl (by decide)⟩

/-- C4: registry validation at declaration time — any value that is 0 or
negative fails with `InvalidActionValueError` naming the value; any value
whose bit position exceeds 31 fails naming that bit position; declaring 33
actions fails with `TooManyActionsError` naming the count 33 and the
constant `MAX_ACTIONS_PER_SCOPE = 32`; and declaring exactly 32 actions at
bit positions 0..31 succeeds with `all_permissions() = 2 ^ 32 - 1`. -/
theorem registry_validation_rules :
    (∀ v : Int, v ≤ 0 →
      validateActionValue v = .error (.invalidActionValue v none)) ∧
    (∀ k : Nat, 31 < k →
      validateActionValue ((2 : Int) ^ k) =
        .error (.invalidActionValue ((2 : Int) ^ k) (some k))) ∧
    registry33.validate = .error (.tooManyActions 33 MAX_ACTIONS_PER_SCOPE) ∧
    registry32.validate = .ok () ∧
    registry32.all_permissions = 2 ^ 32 - 1 := by
  refine ⟨?_, ?_, ?_, ?_, ?_⟩
  · intro v hv
    unfold validateActionValue
    rw [if_pos hv]
  · intro k hk
    have htn : ((2 : Int) ^ k).toNat = 2 ^ k := by
      rw [show ((2 : Int) ^ k) = ((2 ^ k : Nat) : Int) by push_cast; ring]
      exact Int.toNat_natCast _
    have hpos : ¬ ((2 : Int) ^ k ≤ 0) := by
      simp only [not_le]
      positivity
    unfold validateActionValue
    rw [if_neg hpos, htn, bitPos_two_pow, if_neg (by simp), if_pos hk]
  · rfl
  · rfl
  · rfl

/-- Witness for C4: the value -1 and the value `2 ^ 32` (bit position 32). -/
theorem registry_validation_rules_witness :
    (validateActionValue (-1) = .error (.invalidActionValue (-1) none)) ∧
    (validateActionValue ((2 : Int) ^ 32) =
      .error (.invalidActionValue ((2 : Int) ^ 32) (some 32))) :=
  ⟨registry_validation_rules.1 (-1) (by decide),
    registry_validation_rules.2.1 32 (by decide)⟩

/-- C6: `all_permissions()` equals the bitwise OR of all declared action
values, and a subject whose stored entry for the scope equals this value
passes `check_permission` for every action declared in the scope. -/
theorem all_permissions_grants_everything
    (m : PermissionsManager) (u : Subject) (s : String)
    (r : PermissionActionRegistry)
    (hr : m.get_registry s = .ok r) (hv : r.validate = .ok ())
    (hL : u.levelFor s = some r.all_permissions) :
    (r.all_permissions = (r.actions.map (·.nval)).foldr (· ||| ·) 0) ∧
    (∀ d ∈ r.actions, m.check_permission u s (r.actionRef d) = .ok true) := by
  constructor
  · unfold PermissionActionRegistry.all_permissions
    rw [List.foldr_map]
  · intro d hd
    rw [check_permission_some_level m u s r (r.actionRef d) r.all_permissions
      hr (actionRef_mem hd) hL]
    obtain ⟨k, hk⟩ : ∃ k, d.nval = 2 ^ k := ⟨bitPos d.nval, (validate_mem hv hd).2.1⟩
    have hbit : r.all_permissions.testBit k = true := by
      rw [all_permissions_eq_combineMask, testBit_combineMask]
      simp only [List.any_eq_true]
      refine ⟨r.actionRef d, List.mem_map_of_mem _ hd, ?_⟩
      show d.nval.testBit k = true
      rw [hk]
      exact Nat.testBit_two_pow_self
    have hne : r.all_permissions &&& (r.actionRef d).nval ≠ 0 := by
      show r.all_permissions &&& d.nval ≠ 0
      rw [hk, land_two_pow_ne_zero]
      exact hbit
    congr 1
    simpa using hne

/-- Witness for C6: the fixture manager and a subject holding the tasks
scope's full level 15. -/
theorem all_permissions_grants_everything_witness :
    testManager.check_permission user15 "tasks"
      (TaskPermissions.actionRef ⟨"DELETE", 8⟩) = .ok true :=
  (all_permissions_grants_everything testManager user15 "tasks"
    TaskPermissions rfl rfl rfl).2 ⟨"DELETE", 8⟩ (by decide)

/-! List search lemmas used for the store proofs. -/

theorem find?_filter_keep {α : Type} (p q : α → Bool)
    (h : ∀ x, p x = true → q x = true) :
    ∀ l : List α, List.find? p (l.filter q) = List.find? p l := by
  intro l
  induction l with
  | nil => rfl
  | cons x xs ih =>
    cases hq : q x with
    | true =>
      rw [List.filter_cons_of_pos hq]
      cases hx : p x with
      | true => rw [List.find?_cons_of_pos _ hx, List.find?_cons_of_pos _ hx]
      | false =>
        rw [List.find?_cons_of_neg _ (by simp [hx]),
          List.find?_cons_of_neg _ (by simp [hx])]
        exact ih
    | false =>
      rw [List.filter_cons_of_neg (by simp [hq])]
      have hx : p x = false := by
        cases hx : p x
        · rfl
        · have hc := h x hx
          rw [hq] at hc
          exact Bool.noConfusion hc
      rw [List.find?_cons_of_neg _ (by simp [hx])]
      exact ih

theorem find?_append_single_neg {α : Type} (p : α → Bool) (l : List α) (x : α)
    (hx : p x = false) : List.find? p (l ++ [x]) = List.find? p l := by
  rw [List.find?_append]
  have h1 : List.find? p [x] = none := by
    rw [List.find?_cons_of_neg _ (by simp [hx])]
    rfl
  rw [h1, Option.or_none]

theorem find?_map_fix {α : Type} (p : α → Bool) (f : α → α)
    (hp : ∀ x, p (f x) = p x) (hfix : ∀ x, p x = true → f x = x) :
    ∀ l : List α, List.find? p (l.map f) = List.find? p l := by
  intro l
  induction l with
  | nil => rfl
  | cons x xs ih =>
    rw [List.map_cons]
    cases hx : p x with
    | true =>
      rw [List.find?_cons_of_pos _ (by rw [hp x]; exact hx),
        List.find?_cons_of_pos _ hx, hfix x hx]
    | false =>
      rw [List.find?_cons_of_neg _ (by rw [hp x]; simp [hx]),
        List.find?_cons_of_neg _ (by simp [hx])]
      exact ih

/-! Store lemmas for the default record type. -/

theorem findGrant_set_self_default {U : Type} [BEq U] [LawfulBEq U]
    (st : Store (Grant U)) (u : U) (s : String) (lvl : Nat) :
    (findGrant (defaultOps U) (set_permission (defaultOps U) st u s lvl).2 u s).map
      (defaultOps U).level = some lvl := by
  unfold set_permission
  cases hf : findGrant (defaultOps U) st u s with
  | none =>
    simp only
    unfold findGrant at hf ⊢
    rw [List.find?_append, hf]
    simp [defaultOps, List.find?]
  | some g =>
    simp only
    unfold findGrant at hf ⊢
    rw [List.find?_map]
    have hcomp :
        ((fun r => (defaultOps U).user_id r == u && (defaultOps U).scope_name r == s) ∘
          (fun x => if (defaultOps U).user_id x == u && (defaultOps U).scope_name x == s
            then (defaultOps U).withLevel x lvl else x)) =
        (fun r => (defaultOps U).user_id r == u && (defaultOps U).scope_name r == s) := by
      funext x
      by_cases hx : ((defaultOps U).user_id x == u &&
          (defaultOps U).scope_name x == s) = true
      · simp only [Function.comp_apply, if_pos hx]
        simp only [defaultOps]
      · simp only [Function.comp_apply, if_neg hx]
    rw [hcomp, hf]
    have hg := List.find?_some hf
    simp only [Option.map]
    rw [if_pos hg]
    simp [defaultOps]

/-- Frame lemma: a keyed update for subject `u` does not move any record of
a different subject `v` past `find?`. -/
theorem findGrant_frame_set_default {U : Type} [BEq U] [LawfulBEq U]
    (st : Store (Grant U)) (u v : U) (s s2 : String) (lvl : Nat)
    (huv : u ≠ v) :
    findGrant (defaultOps U) (set_permission (defaultOps U) st u s lvl).2 v s2 =
      findGrant (defaultOps U) st v s2 := by
  have huv2 : (u == v) = false := beq_eq_false_iff_ne.mpr huv
  unfold set_permission
  cases hf : findGrant (defaultOps U) st u s with
  | none =>
    simp only
    unfold findGrant
    apply find?_append_single_neg
    simp only [defaultOps]
    simp [huv2]
  | some g =>
    simp only
    unfold findGrant
    apply find?_map_fix
    · intro x
      by_cases hx : ((defaultOps U).user_id x == u &&
          (defaultOps U).scope_name x == s) = true
      · rw [if_pos hx]
        simp [defaultOps]
      · rw [if_neg hx]
    · intro x hx
      have hxv : x.user_id = v := by
        simp only [defaultOps, Bool.and_eq_true, beq_iff_eq] at hx
        exact hx.1
      have hcond : (x.user_id == u) = false := by
        rw [beq_eq_false_iff_ne, hxv]
        exact fun hc => huv hc.symm
      rw [if_neg (by simp [defaultOps, hcond])]

/-- Reduction of `get_user_permission` under a defined scope. -/
theorem get_user_permission_eq {U R : Type} [BEq U] (m : PermissionsManager)
    (ops : PermissionModelOps U R) (st : Store R) (u : U) (s : String)
    (r : PermissionActionRegistry) (hr : m.get_registry s = .ok r) :
    get_user_permission m ops st u s =
      .ok ((findGrant ops st u s).map ops.level) := by
  unfold get_user_permission
  rw [hr, exbind_ok]

/-- `get_user_permission` depends on the store only through `findGrant`. -/
theorem get_congr_of_findGrant {U R : Type} [BEq U] (m : PermissionsManager)
    (ops : PermissionModelOps U R) (st1 st2 : Store R) (v : U) (s2 : String)
    (h : findGrant ops st1 v s2 = findGrant ops st2 v s2) :
    get_user_permission m ops st1 v s2 = get_user_permission m ops st2 v s2 := by
  unfold get_user_permission
  cases hreg : m.get_registry s2 with
  | error e => rfl
  | ok r => rw [h]

/-- `has_permission` depends on the store only through `get_user_permission`. -/
theorem has_congr_of_get {U R : Type} [BEq U] (m : PermissionsManager)
    (ops : PermissionModelOps U R) (st1 st2 : Store R) (v : U) (s2 : String)
    (a : ActionRef)
    (h : get_user_permission m ops st1 v s2 = get_user_permission m ops st2 v s2) :
    has_permission m ops st1 v s2 a = has_permission m ops st2 v s2 a := by
  unfold has_permission
  rw [h]

/-- The store after a grant; unchanged when the grant fails. -/
def grantState {U R : Type} [BEq U] (m : PermissionsManager)
    (ops : PermissionModelOps U R) (st : Store R) (u : U) (s : String)
    (actions : List ActionRef) : Store R :=
  match grant_actions m ops st u s actions with
  | .ok p => p.2
  | .error _ => st

/-- The store after a revoke; unchanged when the revoke fails. -/
def revokeState {U R : Type} [BEq U] (m : PermissionsManager)
    (ops : PermissionModelOps U R) (st : Store R) (u : U) (s : String)
    (actions : List ActionRef) : Store R :=
  match revoke_actions m ops st u s actions with
  | .ok p => p.2
  | .error _ => st

/-- Frame lemma: deleting records keyed by a predicate that every record of
`v` fails to match leaves `v`'s lookup unchanged. -/
theorem findGrant_frame_filter_default {U : Type} [BEq U] [LawfulBEq U]
    (st : Store (Grant U)) (v : U) (s2 : String) (q : Grant U → Bool)
    (hq : ∀ x : Grant U, x.user_id = v → q x = true) :
    findGrant (defaultOps U) (st.filter q) v s2 =
      findGrant (defaultOps U) st v s2 := by
  unfold findGrant
  apply find?_filter_keep
  intro x hx
  apply hq
  simp only [defaultOps, Bool.and_eq_true, beq_iff_eq] at hx
  exact hx.1

/-- C5: store grant/revoke is read-modify-write bit arithmetic — grant reads
the current stored level (0 if no Grant exists), ORs it with the given
actions' combined mask and upserts; revoke ANDs the current level with the
complement of the mask and upserts.  In particular, from no Grant, granting
CREATE then READ on "tasks" leaves stored level 3, and revoking DELETE on
stored level 15 leaves 7. -/
theorem grant_revoke_bit_arithmetic
    {U : Type} [BEq U] [LawfulBEq U]
    (m : PermissionsManager) (st : Store (Grant U)) (u : U) (s : String)
    (r : PermissionActionRegistry) (actions : List ActionRef)
    (hr : m.get_registry s = .ok r) :
    (grant_actions m (defaultOps U) st u s actions =
      .ok (set_permission (defaultOps U) st u s
        (((findGrant (defaultOps U) st u s).map (defaultOps U).level).getD 0 |||
          combineMask actions))) ∧
    (revoke_actions m (defaultOps U) st u s actions =
      .ok (set_permission (defaultOps U) st u s
        (((findGrant (defaultOps U) st u s).map (defaultOps U).level).getD 0 &&&
          compl32 (combineMask actions)))) ∧
    (get_user_permission m (defaultOps U)
        (grantState m (defaultOps U) st u s actions) u s =
      .ok (some
        (((findGrant (defaultOps U) st u s).map (defaultOps U).level).getD 0 |||
          combineMask actions))) ∧
    (get_user_permission m (defaultOps U)
        (revokeState m (defaultOps U) st u s actions) u s =
      .ok (some
        (((findGrant (defaultOps U) st u s).map (defaultOps U).level).getD 0 &&&
          compl32 (combineMask actions)))) ∧
    (get_user_permission testManager (defaultOps Nat)
        (grantState testManager (defaultOps Nat)
          (grantState testManager (defaultOps Nat) [] 1 "tasks" [taskCREATE])
          1 "tasks" [taskREAD]) 1 "tasks" = .ok (some 3)) ∧
    (get_user_permission testManager (defaultOps Nat)
        (revokeState testManager (defaultOps Nat) [⟨1, "tasks", 15⟩] 1 "tasks"
          [taskDELETE]) 1 "tasks" = .ok (some 7)) := by
  have hget := get_user_permission_eq m (defaultOps U) st u s r hr
  have hgrant : grant_actions m (defaultOps U) st u s actions =
      .ok (set_permission (defaultOps U) st u s
        (((findGrant (defaultOps U) st u s).map (defaultOps U).level).getD 0 |||
          combineMask actions)) := by
    unfold grant_actions
    rw [hget, exbind_ok]
  have hrevoke : revoke_actions m (defaultOps U) st u s actions =
      .ok (set_permission (defaultOps U) st u s
        (((findGrant (defaultOps U) st u s).map (defaultOps U).level).getD 0 &&&
          compl32 (combineMask actions))) := by
    unfold revoke_actions
    rw [hget, exbind_ok]
  refine ⟨hgrant, hrevoke, ?_, ?_, rfl, rfl⟩
  · have hgs : grantState m (defaultOps U) st u s actions =
        (set_permission (defaultOps U) st u s
          (((findGrant (defaultOps U) st u s).map (defaultOps U).level).getD 0 |||
            combineMask actions)).2 := by
      unfold grantState
      rw [hgrant]
    rw [hgs, get_user_permission_eq m (defaultOps U) _ u s r hr,
      findGrant_set_self_default]
  · have hrs : revokeState m (defaultOps U) st u s actions =
        (set_permission (defaultOps U) st u s
          (((findGrant (defaultOps U) st u s).map (defaultOps U).level).getD 0 &&&
            compl32 (combineMask actions))).2 := by
      unfold revokeState
      rw [hrevoke]
    rw [hrs, get_user_permission_eq m (defaultOps U) _ u s r hr,
      findGrant_set_self_default]

/-- Witness for C5: granting CREATE on "tasks" from the empty store. -/
theorem grant_revoke_bit_arithmetic_witness :
    grant_actions testManager (defaultOps Nat) [] 1 "tasks" [taskCREATE] =
      .ok (set_permission (defaultOps Nat) [] 1 "tasks"
        (((findGrant (defaultOps Nat) [] 1 "tasks").map
          (defaultOps Nat).level).getD 0 ||| combineMask [taskCREATE])) :=
  (grant_revoke_bit_arithmetic testManager [] 1 "tasks" TaskPermissions
    [taskCREATE] rfl).1

/-- C7: deleting an existing Grant returns true and a subsequent
`get_user_permission` returns the absent sentinel; deleting a pair with no
Grant returns false. -/
theorem delete_permission_semantics
    {U : Type} [BEq U] (m : PermissionsManager) (st : Store (Grant U))
    (u : U) (s : String) (r : PermissionActionRegistry)
    (hr : m.get_registry s = .ok r) :
    (∀ g, findGrant (defaultOps U) st u s = some g →
      (delete_permission (defaultOps U) st u s).1 = true ∧
      get_user_permission m (defaultOps U)
        (delete_permission (defaultOps U) st u s).2 u s = .ok none) ∧
    (findGrant (defaultOps U) st u s = none →
      (delete_permission (defaultOps U) st u s).1 = false) := by
  constructor
  · intro g hg
    constructor
    · unfold delete_permission
      rw [hg]
      rfl
    · rw [get_user_permission_eq m (defaultOps U) _ u s r hr]
      have hnone : findGrant (defaultOps U)
          (delete_permission (defaultOps U) st u s).2 u s = none := by
        unfold delete_permission findGrant
        simp only
        rw [List.find?_eq_none]
        intro x hx hp
        have h2 := (List.mem_filter.mp hx).2
        rw [hp] at h2
        exact Bool.noConfusion h2
      rw [hnone]
      rfl
  · intro hnone
    unfold delete_permission
    rw [hnone]
    rfl

/-- Witness for C7: a one-record store, then the empty store. -/
theorem delete_permission_semantics_witness :
    (delete_permission (defaultOps Nat) [⟨1, "tasks", 3⟩] 1 "tasks").1 = true ∧
    get_user_permission testManager (defaultOps Nat)
      (delete_permission (defaultOps Nat) [⟨1, "tasks", 3⟩] 1 "tasks").2
      1 "tasks" = .ok none ∧
    (delete_permission (defaultOps Nat) [] 1 "tasks").1 = false := by
  obtain ⟨ha, hb⟩ := (delete_permission_semantics testManager
    [⟨1, "tasks", 3⟩] 1 "tasks" TaskPermissions rfl).1 ⟨1, "tasks", 3⟩ (by rfl)
  exact ⟨ha, hb, (delete_permission_semantics testManager [] 1 "tasks"
    TaskPermissions rfl).2 rfl⟩

/-- C8: a cache built with `ttl_seconds = 0` is disabled — `get` returns the
absent sentinel for every subject regardless of any prior `set` calls (`set`
is a no-op) — and for any TTL, `invalidate` on an absent key never fails and
leaves the cache unchanged. -/
theorem cache_ttl_zero_and_invalidate
    {U : Type} [BEq U] (c : PermissionCache U) (now t : Nat) (u v : U)
    (perms : List (String × Nat)) :
    (c.ttl_seconds = 0 → c.get now u = none) ∧
    (c.ttl_seconds = 0 → c.set t v perms = c) ∧
    (c.entries.find? (fun e => e.1 == u) = none → c.invalidate u = c) := by
  refine ⟨?_, ?_, ?_⟩
  · intro h0
    unfold PermissionCache.get
    cases hf : c.entries.find? (fun e => e.1 == u) with
    | none => rfl
    | some e =>
      rw [h0]
      exact if_neg (Nat.not_lt_zero _)
  · intro h0
    unfold PermissionCache.set
    rw [if_pos (by simp [h0])]
  · intro hf
    unfold PermissionCache.invalidate
    have hsame : c.entries.filter (fun e => !(e.1 == u)) = c.entries := by
      rw [List.filter_eq_self]
      intro a ha
      have hnot := List.find?_eq_none.mp hf a ha
      cases hav : (a.1 == u)
      · simp [hav]
      · exact absurd hav hnot
    rw [hsame]

/-- Witness for C8: a disabled cache after a `set`, and `invalidate` of a
missing key on a fresh TTL-60 cache. -/
theorem cache_ttl_zero_and_invalidate_witness :
    ((⟨0, []⟩ : PermissionCache Nat).set 5 1 [("tasks", 3)]).get 6 1 = none ∧
    (⟨60, []⟩ : PermissionCache Nat).invalidate 999 = ⟨60, []⟩ :=
  ⟨(cache_ttl_zero_and_invalidate
      ((⟨0, []⟩ : PermissionCache Nat).set 5 1 [("tasks", 3)]) 6 0 1 1 []).1 rfl,
    (cache_ttl_zero_and_invalidate (⟨60, []⟩ : PermissionCache Nat)
      0 0 999 999 []).2.2 rfl⟩

/-- C9: subject isolation — for distinct subjects `u ≠ v`, every store write
for `u` (set, grant, revoke, delete, bulk delete) leaves `v`'s results from
`get_user_permission` and `has_permission` unchanged. -/
theorem store_subject_isolation
    {U : Type} [BEq U] [LawfulBEq U]
    (m : PermissionsManager) (st : Store (Grant U)) (u v : U) (s : String)
    (lvl : Nat) (actions : List ActionRef) (huv : u ≠ v) :
    (∀ s2, get_user_permission m (defaultOps U)
        (set_permission (defaultOps U) st u s lvl).2 v s2 =
      get_user_permission m (defaultOps U) st v s2) ∧
    (∀ res, grant_actions m (defaultOps U) st u s actions = .ok res →
      ∀ s2, get_user_permission m (defaultOps U) res.2 v s2 =
        get_user_permission m (defaultOps U) st v s2) ∧
    (∀ res, revoke_actions m (defaultOps U) st u s actions = .ok res →
      ∀ s2, get_user_permission m (defaultOps U) res.2 v s2 =
        get_user_permission m (defaultOps U) st v s2) ∧
    (∀ s2, get_user_permission m (defaultOps U)
        (delete_permission (defaultOps U) st u s).2 v s2 =
      get_user_permission m (defaultOps U) st v s2) ∧
    (∀ s2, get_user_permission m (defaultOps U)
        (delete_all_permissions (defaultOps U) st u).2 v s2 =
      get_user_permission m (defaultOps U) st v s2) ∧
    (∀ s2 a, has_permission m (defaultOps U)
        (set_permission (defaultOps U) st u s lvl).2 v s2 a =
      has_permission m (defaultOps U) st v s2 a) ∧
    (∀ s2 a, has_permission m (defaultOps U)
        (delete_permission (defaultOps U) st u s).2 v s2 a =
      has_permission m (defaultOps U) st v s2 a) := by
  have huv2 : (u == v) = false := beq_eq_false_iff_ne.mpr huv
  have hset : ∀ s2, get_user_permission m (defaultOps U)
      (set_permission (defaultOps U) st u s lvl).2 v s2 =
      get_user_permission m (defaultOps U) st v s2 := fun s2 =>
    get_congr_of_findGrant m (defaultOps U) _ st v s2
      (findGrant_frame_set_default st u v s s2 lvl huv)
  have hdelq : ∀ x : Grant U, x.user_id = v →
      (!((defaultOps U).user_id x == u && (defaultOps U).scope_name x == s)) = true := by
    intro x hxv
    have : (x.user_id == u) = false := by
      rw [beq_eq_false_iff_ne, hxv]
      exact fun hc => huv hc.symm
    simp [defaultOps, this]
  have hdel : ∀ s2, get_user_permission m (defaultOps U)
      (delete_permission (defaultOps U) st u s).2 v s2 =
      get_user_permission m (defaultOps U) st v s2 := by
    intro s2
    apply get_congr_of_findGrant
    unfold delete_permission
    simp only
    exact findGrant_frame_filter_default st v s2 _ hdelq
  refine ⟨hset, ?_, ?_, hdel, ?_, fun s2 a => has_congr_of_get m (defaultOps U)
    _ st v s2 a (hset s2), fun s2 a => has_congr_of_get m (defaultOps U)
    _ st v s2 a (hdel s2)⟩
  · intro res hres
    unfold grant_actions at hres
    cases hget : get_user_permission m (defaultOps U) st u s with
    | error e =>
      rw [hget] at hres
      exact Except.noConfusion hres
    | ok cur =>
      rw [hget, exbind_ok] at hres
      injection hres with hres2
      intro s2
      rw [← hres2]
      exact get_congr_of_findGrant m (defaultOps U) _ st v s2
        (findGrant_frame_set_default st u v s s2 _ huv)
  · intro res hres
    unfold revoke_actions at hres
    cases hget : get_user_permission m (defaultOps U) st u s with
    | error e =>
      rw [hget] at hres
      exact Except.noConfusion hres
    | ok cur =>
      rw [hget, exbind_ok] at hres
      injection hres with hres2
      intro s2
      rw [← hres2]
      exact get_congr_of_findGrant m (defaultOps U) _ st v s2
        (findGrant_frame_set_default st u v s s2 _ huv)
  · intro s2
    apply get_congr_of_findGrant
    unfold delete_all_permissions
    simp only
    apply findGrant_frame_filter_default
    intro x hxv
    have hfalse : (x.user_id == u) = false := by
      rw [beq_eq_false_iff_ne, hxv]
      exact fun hc => huv hc.symm
    simp [defaultOps, hfalse]

/-- Witness for C9: overwriting subject 1's tasks level leaves subject 2's
lookup unchanged. -/
theorem store_subject_isolation_witness :
    get_user_permission testManager (defaultOps Nat)
      (set_permission (defaultOps Nat) [⟨1, "tasks", 1⟩, ⟨2, "tasks", 2⟩]
        1 "tasks" 5).2 2 "tasks" =
    get_user_permission testManager (defaultOps Nat)
      [⟨1, "tasks", 1⟩, ⟨2, "tasks", 2⟩] 2 "tasks" :=
  (store_subject_isolation testManager [⟨1, "tasks", 1⟩, ⟨2, "tasks", 2⟩]
    1 2 "tasks" 5 [] (by decide)).1 "tasks"

/-! Observational equivalence of repositories over different record types. -/

/-- One repository operation of an operation sequence. -/
inductive RepoOp (U : Type) where
  | setPerm (u : U) (s : String) (lvl : Nat)
  | grant (u : U) (s : String) (acts : List ActionRef)
  | revoke (u : U) (s : String) (acts : List ActionRef)
  | deleteOne (u : U) (s : String)
  | deleteAll (u : U)

/-- The observable output of one repository operation, with records
abstracted to their canonical `(subject, scope, level)` triple. -/
inductive RepoObs (U : Type) where
  | upserted (t : U × String × Nat)
  | granted (t : Option (U × String × Nat))
  | revoked (t : Option (U × String × Nat))
  | removed (b : Bool)
  | removedAll (n : Nat)

/-- The canonical-field abstraction of a record. -/
def absRec {U R : Type} (ops : PermissionModelOps U R) (r : R) :
    U × String × Nat :=
  (ops.user_id r, ops.scope_name r, ops.level r)

/-- The canonical-field abstraction of a whole store. -/
def absState {U R : Type} (ops : PermissionModelOps U R) (st : Store R) :
    List (U × String × Nat) :=
  st.map (absRec ops)

/-- Run one operation, returning the new store and the observation; a failed
grant or revoke leaves the store unchanged. -/
def stepOp {U R : Type} [BEq U] (m : PermissionsManager)
    (ops : PermissionModelOps U R) (st : Store R) :
    RepoOp U → Store R × RepoObs U
  | .setPerm u s lvl =>
    let p := set_permission ops st u s lvl
    (p.2, .upserted (absRec ops p.1))
  | .grant u s acts =>
    match grant_actions m ops st u s acts with
    | .ok p => (p.2, .granted (some (absRec ops p.1)))
    | .error _ => (st, .granted none)
  | .revoke u s acts =>
    match revoke_actions m ops st u s acts with
    | .ok p => (p.2, .revoked (some (absRec ops p.1)))
    | .error _ => (st, .revoked none)
  | .deleteOne u s =>
    let p := delete_permission ops st u s
    (p.2, .removed p.1)
  | .deleteAll u =>
    let p := delete_all_permissions ops st u
    (p.2, .removedAll p.1)

/-- Run an operation sequence, collecting the observation trace. -/
def runOps {U R : Type} [BEq U] (m : PermissionsManager)
    (ops : PermissionModelOps U R) :
    List (RepoOp U) → Store R → Store R × List (RepoObs U)
  | [], st => (st, [])
  | op :: rest, st =>
    let p := stepOp m ops st op
    let q := runOps m ops rest p.1
    (q.1, p.2 :: q.2)

theorem findGrant_absState {U R : Type} [BEq U] (ops : PermissionModelOps U R)
    (st : Store R) (u : U) (s : String) :
    List.find? (fun t => t.1 == u && t.2.1 == s) (absState ops st) =
      (findGrant ops st u s).map (absRec ops) := by
  unfold absState findGrant
  rw [List.find?_map]
  rfl

theorem findGrant_abs_rel {U R1 R2 : Type} [BEq U]
    (ops1 : PermissionModelOps U R1) (ops2 : PermissionModelOps U R2)
    (st1 : Store R1) (st2 : Store R2) (u : U) (s : String)
    (hrel : absState ops1 st1 = absState ops2 st2) :
    (findGrant ops1 st1 u s).map (absRec ops1) =
      (findGrant ops2 st2 u s).map (absRec ops2) := by
  rw [← findGrant_absState, ← findGrant_absState, hrel]

theorem findGrant_level_rel {U R1 R2 : Type} [BEq U]
    (ops1 : PermissionModelOps U R1) (ops2 : PermissionModelOps U R2)
    (st1 : Store R1) (st2 : Store R2) (u : U) (s : String)
    (hrel : absState ops1 st1 = absState ops2 st2) :
    (findGrant ops1 st1 u s).map ops1.level =
      (findGrant ops2 st2 u s).map ops2.level := by
  have h1 := findGrant_abs_rel ops1 ops2 st1 st2 u s hrel
  have e1 : (findGrant ops1 st1 u s).map ops1.level =
      ((findGrant ops1 st1 u s).map (absRec ops1)).map (fun t => t.2.2) := by
    rw [Option.map_map]
    rfl
  have e2 : (findGrant ops2 st2 u s).map ops2.level =
      ((findGrant ops2 st2 u s).map (absRec ops2)).map (fun t => t.2.2) := by
    rw [Option.map_map]
    rfl
  rw [e1, e2, h1]

theorem get_user_permission_rel {U R1 R2 : Type} [BEq U]
    (m : PermissionsManager)
    (ops1 : PermissionModelOps U R1) (ops2 : PermissionModelOps U R2)
    (st1 : Store R1) (st2 : Store R2) (u : U) (s : String)
    (hrel : absState ops1 st1 = absState ops2 st2) :
    get_user_permission m ops1 st1 u s = get_user_permission m ops2 st2 u s := by
  unfold get_user_permission
  cases hreg : m.get_registry s with
  | error e => rfl
  | ok r =>
    exact congrArg Except.ok (findGrant_level_rel ops1 ops2 st1 st2 u s hrel)

theorem get_all_user_permissions_rel {U R1 R2 : Type} [BEq U]
    (ops1 : PermissionModelOps U R1) (ops2 : PermissionModelOps U R2)
    (st1 : Store R1) (st2 : Store R2) (u : U)
    (hrel : absState ops1 st1 = absState ops2 st2) :
    get_all_user_permissions ops1 st1 u = get_all_user_permissions ops2 st2 u := by
  have e : ∀ {R : Type} (ops : PermissionModelOps U R) (st : Store R),
      get_all_user_permissions ops st u =
      ((absState ops st).filter (fun t => t.1 == u)).map
        (fun t => (t.2.1, t.2.2)) := by
    intro R ops st
    unfold get_all_user_permissions absState
    rw [List.filter_map, List.map_map]
    rfl
  rw [e ops1 st1, e ops2 st2, hrel]

/-- The pointwise action of the keyed level update on abstract triples. -/
def absUpd {U : Type} [BEq U] (u : U) (s : String) (lvl : Nat)
    (t : U × String × Nat) : U × String × Nat :=
  if t.1 == u && t.2.1 == s then (t.1, t.2.1, lvl) else t

theorem absRec_upd {U R : Type} [BEq U] (ops : PermissionModelOps U R)
    (laws : LawfulOps ops) (u : U) (s : String) (lvl : Nat) (x : R) :
    absRec ops (if ops.user_id x == u && ops.scope_name x == s
      then ops.withLevel x lvl else x) =
    absUpd u s lvl (absRec ops x) := by
  unfold absUpd
  by_cases h : (ops.user_id x == u && ops.scope_name x == s) = true
  · have h2 : ((absRec ops x).1 == u && (absRec ops x).2.1 == s) = true := h
    rw [if_pos h, if_pos h2]
    unfold absRec
    rw [laws.user_id_withLevel, laws.scope_withLevel, laws.level_withLevel]
  · have h2 : ¬ (((absRec ops x).1 == u && (absRec ops x).2.1 == s) = true) := h
    rw [if_neg h, if_neg h2]

theorem set_permission_rel {U R1 R2 : Type} [BEq U]
    (ops1 : PermissionModelOps U R1) (ops2 : PermissionModelOps U R2)
    (l1 : LawfulOps ops1) (l2 : LawfulOps ops2)
    (st1 : Store R1) (st2 : Store R2) (u : U) (s : String) (lvl : Nat)
    (hrel : absState ops1 st1 = absState ops2 st2) :
    absRec ops1 (set_permission ops1 st1 u s lvl).1 =
      absRec ops2 (set_permission ops2 st2 u s lvl).1 ∧
    absState ops1 (set_permission ops1 st1 u s lvl).2 =
      absState ops2 (set_permission ops2 st2 u s lvl).2 := by
  have hfind := findGrant_abs_rel ops1 ops2 st1 st2 u s hrel
  unfold set_permission
  cases h1 : findGrant ops1 st1 u s with
  | none =>
    rw [h1] at hfind
    cases h2 : findGrant ops2 st2 u s with
    | some g2 =>
      rw [h2] at hfind
      exact Option.noConfusion hfind
    | none =>
      simp only
      constructor
      · unfold absRec
        rw [l1.user_id_mk, l1.scope_mk, l1.level_mk,
          l2.user_id_mk, l2.scope_mk, l2.level_mk]
      · unfold absState
        rw [List.map_append, List.map_append]
        unfold absState at hrel
        rw [hrel]
        congr 1
        show [absRec ops1 (ops1.mkRecord u s lvl)] =
          [absRec ops2 (ops2.mkRecord u s lvl)]
        unfold absRec
        rw [l1.user_id_mk, l1.scope_mk, l1.level_mk,
          l2.user_id_mk, l2.scope_mk, l2.level_mk]
  | some g1 =>
    rw [h1] at hfind
    cases h2 : findGrant ops2 st2 u s with
    | none =>
      rw [h2] at hfind
      exact Option.noConfusion hfind
    | some g2 =>
      rw [h2] at hfind
      injection hfind with habs
      simp only
      have hu : ops1.user_id g1 = ops2.user_id g2 :=
        congrArg (fun t => t.1) habs
      have hs : ops1.scope_name g1 = ops2.scope_name g2 :=
        congrArg (fun t => t.2.1) habs
      constructor
      · unfold absRec
        rw [l1.user_id_withLevel, l1.scope_withLevel, l1.level_withLevel,
          l2.user_id_withLevel, l2.scope_withLevel, l2.level_withLevel, hu, hs]
      · have e : ∀ {R : Type} (ops : PermissionModelOps U R)
            (laws : LawfulOps ops) (st : Store R),
            absState ops
              (st.map (fun x =>
                if ops.user_id x == u && ops.scope_name x == s
                then ops.withLevel x lvl else x)) =
            List.map (absUpd u s lvl) (absState ops st) := by
          intro R ops laws st
          unfold absState
          rw [List.map_map, List.map_map]
          have hfun : (absRec ops ∘ fun x =>
              if ops.user_id x == u && ops.scope_name x == s
              then ops.withLevel x lvl else x) =
              (absUpd u s lvl ∘ absRec ops) :=
            funext fun x => absRec_upd ops laws u s lvl x
          rw [hfun]
        rw [e ops1 l1 st1, e ops2 l2 st2, hrel]

theorem delete_permission_rel {U R1 R2 : Type} [BEq U]
    (ops1 : PermissionModelOps U R1) (ops2 : PermissionModelOps U R2)
    (st1 : Store R1) (st2 : Store R2) (u : U) (s : String)
    (hrel : absState ops1 st1 = absState ops2 st2) :
    (delete_permission ops1 st1 u s).1 = (delete_permission ops2 st2 u s).1 ∧
    absState ops1 (delete_permission ops1 st1 u s).2 =
      absState ops2 (delete_permission ops2 st2 u s).2 := by
  have hfind := findGrant_abs_rel ops1 ops2 st1 st2 u s hrel
  constructor
  · unfold delete_permission
    cases h1 : findGrant ops1 st1 u s with
    | none =>
      cases h2 : findGrant ops2 st2 u s with
      | none => rfl
      | some g2 =>
        rw [h1, h2] at hfind
        exact Option.noConfusion hfind
    | some g1 =>
      cases h2 : findGrant ops2 st2 u s with
      | none =>
        rw [h1, h2] at hfind
        exact Option.noConfusion hfind
      | some g2 => rfl
  · unfold delete_permission
    simp only
    have e : ∀ {R : Type} (ops : PermissionModelOps U R) (st : Store R),
        absState ops (st.filter (fun r =>
          !(ops.user_id r == u && ops.scope_name r == s))) =
        (absState ops st).filter (fun t => !(t.1 == u && t.2.1 == s)) := by
      intro R ops st
      unfold absState
      rw [List.filter_map]
      rfl
    rw [e ops1 st1, e ops2 st2, hrel]

theorem delete_all_permissions_rel {U R1 R2 : Type} [BEq U]
    (ops1 : PermissionModelOps U R1) (ops2 : PermissionModelOps U R2)
    (st1 : Store R1) (st2 : Store R2) (u : U)
    (hrel : absState ops1 st1 = absState ops2 st2) :
    (delete_all_permissions ops1 st1 u).1 =
      (delete_all_permissions ops2 st2 u).1 ∧
    absState ops1 (delete_all_permissions ops1 st1 u).2 =
      absState ops2 (delete_all_permissions ops2 st2 u).2 := by
  constructor
  · unfold delete_all_permissions
    simp only
    have e : ∀ {R : Type} (ops : PermissionModelOps U R) (st : Store R),
        (st.filter (fun r => ops.user_id r == u)).length =
        ((absState ops st).filter (fun t => t.1 == u)).length := by
      intro R ops st
      unfold absState
      rw [List.filter_map, List.length_map]
      rfl
    rw [e ops1 st1, e ops2 st2, hrel]
  · unfold delete_all_permissions
    simp only
    have e : ∀ {R : Type} (ops : PermissionModelOps U R) (st : Store R),
        absState ops (st.filter (fun r => !(ops.user_id r == u))) =
        (absState ops st).filter (fun t => !(t.1 == u)) := by
      intro R ops st
      unfold absState
      rw [List.filter_map]
      rfl
    rw [e ops1 st1, e ops2 st2, hrel]

theorem stepOp_rel {U R1 R2 : Type} [BEq U] (m : PermissionsManager)
    (ops1 : PermissionModelOps U R1) (ops2 : PermissionModelOps U R2)
    (l1 : LawfulOps ops1) (l2 : LawfulOps ops2)
    (st1 : Store R1) (st2 : Store R2)
    (hrel : absState ops1 st1 = absState ops2 st2) :
    ∀ op : RepoOp U,
      (stepOp m ops1 st1 op).2 = (stepOp m ops2 st2 op).2 ∧
      absState ops1 (stepOp m ops1 st1 op).1 =
        absState ops2 (stepOp m ops2 st2 op).1 := by
  intro op
  cases op with
  | setPerm u s lvl =>
    obtain ⟨ha, hb⟩ := set_permission_rel ops1 ops2 l1 l2 st1 st2 u s lvl hrel
    exact ⟨congrArg RepoObs.upserted ha, hb⟩
  | grant u s acts =>
    have hget := get_user_permission_rel m ops1 ops2 st1 st2 u s hrel
    cases hg : get_user_permission m ops1 st1 u s with
    | error e =>
      have hg2 : get_user_permission m ops2 st2 u s = .error e := by
        rw [← hget]
        exact hg
      have ge1 : grant_actions m ops1 st1 u s acts = .error e := by
        unfold grant_actions
        rw [hg]
        rfl
      have ge2 : grant_actions m ops2 st2 u s acts = .error e := by
        unfold grant_actions
        rw [hg2]
        rfl
      simp only [stepOp]
      rw [ge1, ge2]
      exact ⟨rfl, hrel⟩
    | ok cur =>
      have hg2 : get_user_permission m ops2 st2 u s = .ok cur := by
        rw [← hget]
        exact hg
      have ge1 : grant_actions m ops1 st1 u s acts =
          .ok (set_permission ops1 st1 u s (cur.getD 0 ||| combineMask acts)) := by
        unfold grant_actions
        rw [hg]
        rfl
      have ge2 : grant_actions m ops2 st2 u s acts =
          .ok (set_permission ops2 st2 u s (cur.getD 0 ||| combineMask acts)) := by
        unfold grant_actions
        rw [hg2]
        rfl
      obtain ⟨ha, hb⟩ := set_permission_rel ops1 ops2 l1 l2 st1 st2 u s
        (cur.getD 0 ||| combineMask acts) hrel
      simp only [stepOp]
      rw [ge1, ge2]
      exact ⟨congrArg (fun t => RepoObs.granted (some t)) ha, hb⟩
  | revoke u s acts =>
    have hget := get_user_permission_rel m ops1 ops2 st1 st2 u s hrel
    cases hg : get_user_permission m ops1 st1 u s with
    | error e =>
      have hg2 : get_user_permission m ops2 st2 u s = .error e := by
        rw [← hget]
        exact hg
      have ge1 : revoke_actions m ops1 st1 u s acts = .error e := by
        unfold revoke_actions
        rw [hg]
        rfl
      have ge2 : revoke_actions m ops2 st2 u s acts = .error e := by
        unfold revoke_actions
        rw [hg2]
        rfl
      simp only [stepOp]
      rw [ge1, ge2]
      exact ⟨rfl, hrel⟩
    | ok cur =>
      have hg2 : get_user_permission m ops2 st2 u s = .ok cur := by
        rw [← hget]
        exact hg
      have ge1 : revoke_actions m ops1 st1 u s acts =
          .ok (set_permission ops1 st1 u s
            (cur.getD 0 &&& compl32 (combineMask acts))) := by
        unfold revoke_actions
        rw [hg]
        rfl
      have ge2 : revoke_actions m ops2 st2 u s acts =
          .ok (set_permission ops2 st2 u s
            (cur.getD 0 &&& compl32 (combineMask acts))) := by
        unfold revoke_actions
        rw [hg2]
        rfl
      obtain ⟨ha, hb⟩ := set_permission_rel ops1 ops2 l1 l2 st1 st2 u s
        (cur.getD 0 &&& compl32 (combineMask acts)) hrel
      simp only [stepOp]
      rw [ge1, ge2]
      exact ⟨congrArg (fun t => RepoObs.revoked (some t)) ha, hb⟩
  | deleteOne u s =>
    obtain ⟨ha, hb⟩ := delete_permission_rel ops1 ops2 st1 st2 u s hrel
    exact ⟨congrArg RepoObs.removed ha, hb⟩
  | deleteAll u =>
    obtain ⟨ha, hb⟩ := delete_all_permissions_rel ops1 ops2 st1 st2 u hrel
    exact ⟨congrArg RepoObs.removedAll ha, hb⟩

theorem runOps_rel {U R1 R2 : Type} [BEq U] (m : PermissionsManager)
    (ops1 : PermissionModelOps U R1) (ops2 : PermissionModelOps U R2)
    (l1 : LawfulOps ops1) (l2 : LawfulOps ops2) :
    ∀ (w : List (RepoOp U)) (st1 : Store R1) (st2 : Store R2),
      absState ops1 st1 = absState ops2 st2 →
      (runOps m ops1 w st1).2 = (runOps m ops2 w st2).2 ∧
      absState ops1 (runOps m ops1 w st1).1 =
        absState ops2 (runOps m ops2 w st2).1 := by
  intro w
  induction w with
  | nil =>
    intro st1 st2 hrel
    exact ⟨rfl, hrel⟩
  | cons op rest ih =>
    intro st1 st2 hrel
    obtain ⟨hobs, hst⟩ := stepOp_rel m ops1 ops2 l1 l2 st1 st2 hrel op
    obtain ⟨hobs2, hst2⟩ := ih (stepOp m ops1 st1 op).1 (stepOp m ops2 st2 op).1 hst
    constructor
    · show (stepOp m ops1 st1 op).2 :: (runOps m ops1 rest (stepOp m ops1 st1 op).1).2 =
        (stepOp m ops2 st2 op).2 :: (runOps m ops2 rest (stepOp m ops2 st2 op).1).2
      rw [hobs, hobs2]
    · exact hst2

/-- C10: a repository built over a caller-supplied lawful record type
behaves observationally like one over the default record — the observation
trace of every operation sequence from the empty store and the abstract
final states coincide, as do `get_user_permission` and
`get_all_user_permissions` on the final stores; and `set_permission` on a
fresh pair returns an instance of the configured model whose canonical
fields hold the given subject, scope and level, the custom model's extra
`tenant_id` column keeping its declared default 1. -/
theorem custom_model_refinement
    {U R1 : Type} [BEq U] (ops1 : PermissionModelOps U R1)
    (l1 : LawfulOps ops1) (m : PermissionsManager) (w : List (RepoOp U)) :
    ((runOps m ops1 w []).2 = (runOps m (defaultOps U) w []).2) ∧
    (absState ops1 (runOps m ops1 w []).1 =
      absState (defaultOps U) (runOps m (defaultOps U) w []).1) ∧
    (∀ (u : U) (s : String),
      get_user_permission m ops1 (runOps m ops1 w []).1 u s =
        get_user_permission m (defaultOps U) (runOps m (defaultOps U) w []).1 u s) ∧
    (∀ u : U, get_all_user_permissions ops1 (runOps m ops1 w []).1 u =
      get_all_user_permissions (defaultOps U) (runOps m (defaultOps U) w []).1 u) ∧
    (∀ (u : U) (s : String) (lvl : Nat),
      absRec ops1 (set_permission ops1 ([] : Store R1) u s lvl).1 = (u, s, lvl)) ∧
    (∀ (u s : String) (lvl : Nat),
      (set_permission customOps ([] : Store CustomPermission) u s lvl).1 =
        ⟨u, s, lvl, 1⟩) := by
  obtain ⟨hobs, hst⟩ := runOps_rel m ops1 (defaultOps U) l1 (defaultOps_lawful U)
    w [] [] rfl
  refine ⟨hobs, hst, ?_, ?_, ?_, ?_⟩
  · intro u s
    exact get_user_permission_rel m ops1 (defaultOps U) _ _ u s hst
  · intro u
    exact get_all_user_permissions_rel ops1 (defaultOps U) _ _ u hst
  · intro u s lvl
    unfold set_permission findGrant
    simp only [List.find?_nil]
    unfold absRec
    rw [l1.user_id_mk, l1.scope_mk, l1.level_mk]
  · intro u s lvl
    rfl

/-- Witness for C10: the custom `tenant_id` model run against the default
model over a five-operation sequence. -/
theorem custom_model_refinement_witness :
    (runOps testManager customOps
      [.setPerm "alice" "tasks" 3, .grant "alice" "tasks" [taskREAD],
        .revoke "alice" "tasks" [taskCREATE], .deleteOne "alice" "tasks",
        .deleteAll "alice"] []).2 =
    (runOps testManager (defaultOps String)
      [.setPerm "alice" "tasks" 3, .grant "alice" "tasks" [taskREAD],
        .revoke "alice" "tasks" [taskCREATE], .deleteOne "alice" "tasks",
        .deleteAll "alice"] []).2 ∧
    (set_permission customOps ([] : Store CustomPermission)
      "alice" "tasks" 3).1 = ⟨"alice", "tasks", 3, 1⟩ := by
  obtain ⟨h1, -, -, -, -, h6⟩ := custom_model_refinement customOps
    customOps_lawful testManager
    [.setPerm "alice" "tasks" 3, .grant "alice" "tasks" [taskREAD],
      .revoke "alice" "tasks" [taskCREATE], .deleteOne "alice" "tasks",
      .deleteAll "alice"]
  exact ⟨h1, h6 "alice" "tasks" 3⟩

end Binauth
